import Mathlib

/-!
Verification of the `thoughtful-agents` conversation engine.

The repository ships only a usage notebook (`examples/getting_started.ipynb`);
the engine itself (`thoughtful_agents` package: `Agent`, `Conversation`,
memory store, decision engine, turn scheduler) is not present.  Every
engine definition below is therefore modelled from the specification, as
its doc comment records; the notebook fixes the observable creation-time
contract (`Agent.create`, `Conversation.create`, the printed state and
memory counters).

Numeric scores and thresholds are rationals; all randomness is an explicit
deterministic oracle (`Env`) holding the injected Embedder / LanguageModel
capabilities and the seeded stochastic draws, so that every operation is a
computable function of its inputs and the seed.
-/

namespace ThoughtfulAgents

/-- Modelled from the spec: memory entry kinds
`kind ∈ {persona, working, long_term, thought}`. -/
inductive MemoryKind where
  | persona
  | working
  | longTerm
  | thought
  deriving DecidableEq, Repr

/-- Modelled from the spec: `MemoryEntry` = {id, content text, embedding
vector, kind, created_at turn index, recency/salience metadata}. -/
structure MemoryEntry where
  id : Nat
  content : String
  embedding : List Rat
  kind : MemoryKind
  createdAt : Nat
  salience : Rat
  deriving DecidableEq, Repr

/-- Modelled from the spec: `Config` = {im_threshold ∈ [0,1], system1_prob
∈ [0,1], interrupt_threshold ∈ [0,1], proactive_tone bool}, immutable. -/
structure Config where
  imThreshold : Rat
  system1Prob : Rat
  interruptThreshold : Rat
  proactiveTone : Bool
  deriving DecidableEq, Repr

/-- Modelled from the spec: `AgentState` = {turns_since_last_speak ≥ 0,
last_turn_spoken ≥ 0}, plus the agent's last recorded motivation score,
which `should_interrupt` reads for the current speaker. -/
structure AgentState where
  turnsSinceLastSpeak : Nat
  lastTurnSpoken : Nat
  lastMotivationScore : Rat
  deriving DecidableEq, Repr

/-- Modelled from the spec: the per-agent append-only layered memory. -/
structure MemoryStore where
  entries : List MemoryEntry
  deriving DecidableEq, Repr

/-- Modelled from the spec: `Agent` = {id unique, name, persona text,
config, memory_store, state}. -/
structure Agent where
  id : Nat
  name : String
  persona : String
  config : Config
  memory : MemoryStore
  state : AgentState
  deriving DecidableEq, Repr

/-- Modelled from the spec: `Utterance` = {turn_index, speaker_id, text,
interrupted bool}. -/
structure Utterance where
  turnIndex : Nat
  speakerId : Nat
  text : String
  interrupted : Bool
  deriving DecidableEq, Repr

/-- Modelled from the spec: `Conversation` = {topic, participants (ordered),
current_turn ≥ 0, transcript (ordered)}. -/
structure Conversation where
  topic : String
  participants : List Agent
  currentTurn : Nat
  transcript : List Utterance
  deriving DecidableEq, Repr

/-- Modelled from the spec: `ConfigError` covers threshold/probability
outside [0,1], empty persona, empty participants, duplicate ids. -/
inductive ConfigError where
  | outOfRange
  | emptyPersona
  | emptyParticipants
  | duplicateParticipants
  deriving DecidableEq, Repr

/-- Modelled from the spec: the injected external capabilities
(Embedder.embed, LanguageModel.generate) together with the pluggable
scoring formulas (§9: exact formulas unobserved, treated as pluggable),
the seeded stochastic draws, and the configurable engine parameters
(persona chunking granularity, working-memory cap, consolidation bar).
Every field is a pure function, so the whole engine is a deterministic
function of its inputs and the seed. -/
structure Env where
  embed : String → List Rat
  generate : Agent → Conversation → Nat → String
  reflect : Agent → Conversation → Nat → String
  motivationRaw : Agent → Conversation → Nat → Rat
  interruptRaw : Agent → Conversation → String → Nat → Rat
  routeDraw : Agent → Nat → Rat
  salienceOf : String → String → Rat
  chunkCount : Nat
  workingCap : Nat
  promoteBar : Rat

/-- Clamp a rational into [0,1]; scores are specified to lie in [0,1]. -/
def clamp01 (q : Rat) : Rat :=
  if q < 0 then 0 else if 1 < q then 1 else q

/-- Modelled from the spec: persona text is chunked into a small fixed,
configurable number of long-term entries (§9); we cut the character list
into `n` equal slices. -/
def chunkPersona (persona : String) (n : Nat) : List String :=
  let cs := persona.data
  let size := cs.length / n + 1
  (List.range n).map (fun i => String.mk ((cs.drop (i * size)).take size))

/-- Modelled from the spec: all config thresholds/probabilities must lie
in [0,1]. -/
def validConfig (c : Config) : Bool :=
  decide (0 ≤ c.imThreshold ∧ c.imThreshold ≤ 1) &&
  decide (0 ≤ c.system1Prob ∧ c.system1Prob ≤ 1) &&
  decide (0 ≤ c.interruptThreshold ∧ c.interruptThreshold ≤ 1)

/-- The long-term memory entry holding one persona chunk (the notebook
logs `Initialized 3 persona memories`, counted as long-term). -/
def personaEntry (e : Env) (p : Nat × String) : MemoryEntry :=
  { id := p.1, content := p.2, embedding := e.embed p.2,
    kind := MemoryKind.persona, createdAt := 0, salience := 0 }

/-- Modelled from the spec: `create_agent` (notebook: `Agent.create`) —
fails with ConfigError on out-of-range values or an empty persona,
otherwise embeds the persona chunks into initial long-term memory and
seeds empty working/thought memories and zeroed state. -/
def Agent.create (e : Env) (id : Nat) (name persona : String)
    (config : Config) : Except ConfigError Agent :=
  if !validConfig config then .error .outOfRange
  else if persona.data.isEmpty then .error .emptyPersona
  else .ok
    { id := id, name := name, persona := persona, config := config,
      memory := ⟨(chunkPersona persona e.chunkCount).enum.map (personaEntry e)⟩,
      state := { turnsSinceLastSpeak := 0, lastTurnSpoken := 0,
                 lastMotivationScore := 0 } }

/-- Modelled from the spec: `create_conversation` (notebook:
`Conversation.create`) — participants must be a non-empty sequence of
agents with pairwise-distinct ids; the conversation starts at turn 0 with
an empty transcript. -/
def Conversation.create (participants : List Agent) (topic : String) :
    Except ConfigError Conversation :=
  if participants.isEmpty then .error .emptyParticipants
  else if (participants.map (fun a => a.id)).Nodup then
    .ok { topic := topic, participants := participants,
          currentTurn := 0, transcript := [] }
  else .error .duplicateParticipants

/-- Number of working-memory entries in a list. -/
def workingLen (l : List MemoryEntry) : Nat :=
  (l.filter (fun m => decide (m.kind = MemoryKind.working))).length

/-- Number of long-term entries in a list: persona-derived or consolidated
memory (glossary: long-term memory is persona-derived or consolidated). -/
def longTermLen (l : List MemoryEntry) : Nat :=
  (l.filter (fun m =>
    decide (m.kind = MemoryKind.persona ∨ m.kind = MemoryKind.longTerm))).length

/-- Number of thought entries in a list. -/
def thoughtLen (l : List MemoryEntry) : Nat :=
  (l.filter (fun m => decide (m.kind = MemoryKind.thought))).length

/-- `inspect`-style counter: working memories of a store. -/
def workingCount (s : MemoryStore) : Nat := workingLen s.entries

/-- `inspect`-style counter: long-term memories of a store. -/
def longTermCount (s : MemoryStore) : Nat := longTermLen s.entries

/-- `inspect`-style counter: thought memories of a store. -/
def thoughtCount (s : MemoryStore) : Nat := thoughtLen s.entries

/-- Modelled from the spec: `compute_intrinsic_motivation(agent, context)
-> score ∈ [0,1]` — the pluggable formula (persona baseline, semantic
relevance, stochastic term) is the oracle `Env.motivationRaw`, clamped
into [0,1]. -/
def compute_intrinsic_motivation (e : Env) (a : Agent)
    (conv : Conversation) (seed : Nat) : Rat :=
  clamp01 (e.motivationRaw a conv seed)

/-- Modelled from the spec: `decide_to_speak(agent, conversation) -> bool`:
true iff motivation score ≥ im_threshold. -/
def decide_to_speak (e : Env) (a : Agent) (conv : Conversation)
    (seed : Nat) : Bool :=
  decide (a.config.imThreshold ≤ compute_intrinsic_motivation e a conv seed)

/-- Modelled from the spec: `compute_interrupt_score(agent,
partial_context) -> score ∈ [0,1]` — same inputs as motivation but
conditioned on the in-progress utterance `ctx`. -/
def compute_interrupt_score (e : Env) (a : Agent) (conv : Conversation)
    (ctx : String) (seed : Nat) : Rat :=
  clamp01 (e.interruptRaw a conv ctx seed)

/-- Modelled from the spec: `should_interrupt(agent, current_speaker) ->
bool`: true iff interrupt score ≥ interrupt_threshold AND strictly exceeds
the current speaker's own last recorded motivation score. -/
def should_interrupt (e : Env) (a speaker : Agent) (conv : Conversation)
    (ctx : String) (seed : Nat) : Bool :=
  let s := compute_interrupt_score e a conv ctx seed
  decide (a.config.interruptThreshold ≤ s) &&
  decide (speaker.state.lastMotivationScore < s)

/-- Modelled from the spec: fast/slow route selection — a weighted random
draw biased by `system1_prob` chooses Fast (true) or Deliberate (false). -/
def routeFast (e : Env) (a : Agent) (seed : Nat) : Bool :=
  decide (clamp01 (e.routeDraw a seed) < a.config.system1Prob)

/-- The speaker of the last transcript entry, if any. -/
def lastSpeakerId (conv : Conversation) : Option Nat :=
  conv.transcript.getLast?.map (fun u => u.speakerId)

/-- Modelled from the spec: CollectingBids excludes the previous speaker
from bidding. -/
def isEligible (conv : Conversation) (a : Agent) : Bool :=
  decide (lastSpeakerId conv ≠ some a.id)

/-- Modelled from the spec: the deterministic total order on bidders —
highest score wins, ties broken first by smaller turns_since_last_speak,
then by lowest agent id.  `beats x y` means x strictly precedes y. -/
def beats (x y : Agent × Rat) : Bool :=
  decide (y.2 < x.2) ||
  (decide (x.2 = y.2) &&
    (decide (x.1.state.turnsSinceLastSpeak < y.1.state.turnsSinceLastSpeak) ||
      (decide (x.1.state.turnsSinceLastSpeak = y.1.state.turnsSinceLastSpeak) &&
       decide (x.1.id < y.1.id))))

/-- One step of the deterministic selection fold. -/
def pickBetter (best : Option (Agent × Rat)) (x : Agent × Rat) :
    Option (Agent × Rat) :=
  match best with
  | none => some x
  | some b => if beats x b then some x else some b

/-- Pick the best scored agent under the deterministic bidder order. -/
def selectBest (l : List (Agent × Rat)) : Option (Agent × Rat) :=
  l.foldl pickBetter none

/-- Modelled from the spec: CollectingBids — every eligible participant
evaluates `decide_to_speak` against the frozen snapshot; qualifying
bidders are paired with their motivation score. -/
def bidders (e : Env) (conv : Conversation) (seed : Nat) :
    List (Agent × Rat) :=
  (conv.participants.filter (isEligible conv)).filterMap (fun a =>
    if decide_to_speak e a conv seed then
      some (a, compute_intrinsic_motivation e a conv seed)
    else none)

/-- Record a motivation score into an agent's state (the "last recorded
motivation score" that `should_interrupt` compares against). -/
def recordMotivation (a : Agent) (s : Rat) : Agent :=
  { a with state := { a.state with lastMotivationScore := s } }

/-- Modelled from the spec: SpeakerSelected — the highest-scoring bidder
wins under the deterministic tie-break order; its freshly computed
motivation score becomes its last recorded motivation score. -/
def speakerOf (e : Env) (conv : Conversation) (seed : Nat) : Option Agent :=
  (selectBest (bidders e conv seed)).map (fun p => recordMotivation p.1 p.2)

/-- Modelled from the spec: the truncation point of an interrupted
utterance — the generated text cut at its midpoint. -/
def truncatedText (s : String) : String :=
  String.mk (s.data.take (s.data.length / 2))

/-- The full utterance text the selected speaker would generate. -/
def utteranceText (e : Env) (sp : Agent) (conv : Conversation)
    (seed : Nat) : String :=
  e.generate sp conv seed

/-- Modelled from the spec: while the speaker generates, every other agent
evaluates `should_interrupt` against the partial output; qualifying
interrupters are paired with their interrupt score. -/
def interruptCandidates (e : Env) (conv : Conversation) (sp : Agent)
    (seed : Nat) : List (Agent × Rat) :=
  let ctx := truncatedText (utteranceText e sp conv seed)
  (conv.participants.filter (fun a => decide (a.id ≠ sp.id))).filterMap
    (fun a =>
      if should_interrupt e a sp conv ctx seed then
        some (a, compute_interrupt_score e a conv ctx seed)
      else none)

/-- Modelled from the spec: a confirmed interruption — simultaneous
qualifying interruptions are resolved via the same deterministic
tie-break order (InterruptionRace is never an error). -/
def interrupterOf (e : Env) (conv : Conversation) (seed : Nat) :
    Option Agent :=
  match speakerOf e conv seed with
  | none => none
  | some sp => (selectBest (interruptCandidates e conv sp seed)).map
      (fun p => p.1)

/-- Modelled from the spec: the transcript entries one cycle appends —
none on silence, the full utterance normally, and on interruption the
truncated utterance tagged `interrupted := true` immediately followed by
the interrupter's utterance with the same turn index. -/
def newUtterances (e : Env) (conv : Conversation) (seed : Nat) :
    List Utterance :=
  match speakerOf e conv seed with
  | none => []
  | some sp =>
    let t := utteranceText e sp conv seed
    match interrupterOf e conv seed with
    | none => [⟨conv.currentTurn, sp.id, t, false⟩]
    | some i => [⟨conv.currentTurn, sp.id, truncatedText t, true⟩,
                 ⟨conv.currentTurn, i.id, utteranceText e i conv seed, false⟩]

/-- The agent that ends the cycle speaking (the interrupter when an
interruption is confirmed, otherwise the selected speaker). -/
def turnSpeaker (e : Env) (conv : Conversation) (seed : Nat) : Option Nat :=
  match interrupterOf e conv seed with
  | some i => some i.id
  | none => (speakerOf e conv seed).map (fun a => a.id)

/-- Modelled from the spec: consolidation promotes working entries whose
salience clears the bar into long-term memory (working → long_term),
leaving every other entry untouched. -/
def promoteSalient (bar : Rat) (l : List MemoryEntry) : List MemoryEntry :=
  l.map (fun m =>
    if m.kind = MemoryKind.working ∧ bar ≤ m.salience then
      { m with kind := MemoryKind.longTerm }
    else m)

/-- The eviction key: least-salient first, oldest first on ties. -/
def evictKey (m : MemoryEntry) : Rat × Nat := (m.salience, m.createdAt)

/-- The smallest eviction key among the working entries, if any. -/
def minWorkingKey (l : List MemoryEntry) : Option (Rat × Nat) :=
  (l.filter (fun m => decide (m.kind = MemoryKind.working))).foldl
    (fun acc m =>
      match acc with
      | none => some (evictKey m)
      | some k =>
        if (evictKey m).1 < k.1 ∨
            ((evictKey m).1 = k.1 ∧ (evictKey m).2 < k.2) then
          some (evictKey m)
        else some k)
    none

/-- Remove the first entry satisfying `p`, if any. -/
def removeFirstBy (p : MemoryEntry → Bool) : List MemoryEntry → List MemoryEntry
  | [] => []
  | m :: rest => if p m then rest else m :: removeFirstBy p rest

/-- Modelled from the spec: evict one least-salient working entry (never a
long-term entry). -/
def evictOne (l : List MemoryEntry) : List MemoryEntry :=
  match minWorkingKey l with
  | none => l
  | some k =>
    removeFirstBy
      (fun m => decide (m.kind = MemoryKind.working) && decide (evictKey m = k)) l

/-- Evict `n` least-salient working entries. -/
def evictDown : Nat → List MemoryEntry → List MemoryEntry
  | 0, l => l
  | n + 1, l => evictDown n (evictOne l)

/-- Modelled from the spec: `consolidate` — triggered when working-memory
size exceeds the configurable cap; promotes the salient working entries
into long_term, then evicts least-salient working entries down to the cap
(never long-term entries). -/
def consolidate (cap : Nat) (bar : Rat) (s : MemoryStore) : MemoryStore :=
  if workingLen s.entries ≤ cap then s
  else
    let promoted := promoteSalient bar s.entries
    ⟨evictDown (workingLen promoted - cap) promoted⟩

/-- The working-memory entry recording one new utterance, its salience the
similarity of its content to the conversation topic. -/
def utteranceEntry (e : Env) (conv : Conversation) (n : Nat)
    (u : Utterance) : MemoryEntry :=
  { id := n, content := u.text, embedding := e.embed u.text,
    kind := MemoryKind.working, createdAt := conv.currentTurn,
    salience := e.salienceOf u.text conv.topic }

/-- Modelled from the spec: PostTurnUpdate for one participant — every new
utterance is appended as a working memory; the final speaker on the
Deliberate route additionally records an explicit thought memory; then
`consolidate` runs if its trigger condition is met. -/
def postTurnMemory (e : Env) (conv : Conversation) (seed : Nat)
    (isSpk : Bool) (a : Agent) : MemoryStore :=
  let base := a.memory.entries
  let added := base ++ (newUtterances e conv seed).enum.map
    (fun p => utteranceEntry e conv (base.length + p.1) p.2)
  let withThought :=
    if isSpk && !routeFast e a seed then
      added ++ [{ id := added.length, content := e.reflect a conv seed,
                  embedding := e.embed (e.reflect a conv seed),
                  kind := MemoryKind.thought, createdAt := conv.currentTurn,
                  salience := 0 }]
    else added
  consolidate e.workingCap e.promoteBar ⟨withThought⟩

/-- Modelled from the spec: the per-participant update of one cycle —
turns_since_last_speak resets to 0 exactly for the (final) speaker and
increments for everyone else, last_turn_spoken is updated for the speaker,
each eligible bidder keeps its freshly recorded motivation score, and the
post-turn memory update runs. -/
def updateParticipant (e : Env) (conv : Conversation) (seed : Nat)
    (a : Agent) : Agent :=
  let spk := turnSpeaker e conv seed
  let recordedScore :=
    if isEligible conv a then compute_intrinsic_motivation e a conv seed
    else a.state.lastMotivationScore
  { a with
    state :=
      { turnsSinceLastSpeak :=
          if spk = some a.id then 0 else a.state.turnsSinceLastSpeak + 1,
        lastTurnSpoken :=
          if spk = some a.id then conv.currentTurn else a.state.lastTurnSpoken,
        lastMotivationScore := recordedScore },
    memory := postTurnMemory e conv seed (decide (spk = some a.id)) a }

/-- Modelled from the spec: `advance(conversation)` — one full cycle of
the turn scheduler (CollectingBids → SpeakerSelected → Speaking →
PostTurnUpdate): current_turn increases by exactly 1 whether the cycle
produced an utterance, an interruption pair, or silence. -/
def advance (e : Env) (conv : Conversation) (seed : Nat) : Conversation :=
  { topic := conv.topic,
    participants := conv.participants.map (updateParticipant e conv seed),
    currentTurn := conv.currentTurn + 1,
    transcript := conv.transcript ++ newUtterances e conv seed }

/-- Modelled from the spec: `run(conversation, max_turns)` — runs full
turn cycles until the caller-supplied max-turn limit, varying the seed
each cycle. -/
def run (e : Env) : Conversation → Nat → Nat → Conversation
  | conv, 0, _ => conv
  | conv, n + 1, seed => run e (advance e conv seed) n (seed + 1)

/-- A deterministic mock environment (test double for Embedder and
LanguageModel): motivation always 0, interrupt urgency always 1, fixed
generated text.  Used as the concrete input of witnesses and
counterexamples. -/
def envDemo : Env :=
  { embed := fun _ => [1],
    generate := fun _ _ _ => "hello!",
    reflect := fun _ _ _ => "mm",
    motivationRaw := fun _ _ _ => 0,
    interruptRaw := fun _ _ _ _ => 1,
    routeDraw := fun _ _ => 0,
    salienceOf := fun _ _ => 0,
    chunkCount := 3,
    workingCap := 100,
    promoteBar := 1 }

/-- A demo config with every threshold at its permissive extreme. -/
def cfgDemo : Config :=
  { imThreshold := 0, system1Prob := 1, interruptThreshold := 0,
    proactiveTone := true }

/-- First demo agent (id 0). -/
def agentA : Agent :=
  { id := 0, name := "A", persona := "pa", config := cfgDemo,
    memory := ⟨[]⟩,
    state := { turnsSinceLastSpeak := 0, lastTurnSpoken := 0,
               lastMotivationScore := 0 } }

/-- Second demo agent (id 1). -/
def agentB : Agent :=
  { id := 1, name := "B", persona := "pb", config := cfgDemo,
    memory := ⟨[]⟩,
    state := { turnsSinceLastSpeak := 0, lastTurnSpoken := 0,
               lastMotivationScore := 0 } }

/-- A demo conversation between the two demo agents. -/
def convDemo : Conversation :=
  { topic := "ai", participants := [agentA, agentB], currentTurn := 0,
    transcript := [] }

/-- A pointwise relation between a list and its image under a map. -/
theorem forallTwoMap {α β : Type} (R : α → β → Prop) (f : α → β)
    (l : List α) (h : ∀ a ∈ l, R a (f a)) : List.Forall₂ R l (l.map f) := by
  induction l with
  | nil => exact List.Forall₂.nil
  | cons a t ih =>
    exact List.Forall₂.cons (h a (List.mem_cons_self a t))
      (ih (fun b hb => h b (List.mem_cons_of_mem a hb)))

/-- Composing two pointwise relations along a middle list. -/
theorem forallTwoComp {α : Type} {R S T : α → α → Prop}
    (hRST : ∀ a b c, R a b → S b c → T a c) {l₁ l₂ l₃ : List α}
    (h₁ : List.Forall₂ R l₁ l₂) (h₂ : List.Forall₂ S l₂ l₃) :
    List.Forall₂ T l₁ l₃ := by
  induction h₁ generalizing l₃ with
  | nil => cases h₂; exact List.Forall₂.nil
  | cons hr _ ih =>
    cases h₂ with
    | cons hs ht => exact List.Forall₂.cons (hRST _ _ _ hr hs) (ih ht)

/-- One selection step yields either its new candidate or its accumulator. -/
theorem pickBetter_eq_some {acc : Option (Agent × Rat)} {y x : Agent × Rat}
    (h : pickBetter acc y = some x) : x = y ∨ acc = some x := by
  cases acc with
  | none => exact Or.inl (Option.some.inj h).symm
  | some b =>
    simp only [pickBetter] at h
    by_cases hb : beats y b = true
    · rw [if_pos hb] at h
      exact Or.inl (Option.some.inj h).symm
    · rw [if_neg hb] at h
      exact Or.inr h

/-- The selection fold only ever returns a candidate from the list or the
initial accumulator. -/
theorem foldl_pickBetter_mem (l : List (Agent × Rat)) :
    ∀ (acc : Option (Agent × Rat)) (x : Agent × Rat),
      l.foldl pickBetter acc = some x → x ∈ l ∨ acc = some x := by
  induction l with
  | nil => intro acc x h; exact Or.inr h
  | cons y t ih =>
    intro acc x h
    rcases ih (pickBetter acc y) x h with hm | he
    · exact Or.inl (List.mem_cons_of_mem _ hm)
    · rcases pickBetter_eq_some he with h1 | h2
      · exact Or.inl (h1 ▸ List.mem_cons_self y t)
      · exact Or.inr h2

/-- `selectBest` only returns members of its input list. -/
theorem selectBest_mem {l : List (Agent × Rat)} {x : Agent × Rat}
    (h : selectBest l = some x) : x ∈ l := by
  rcases foldl_pickBetter_mem l none x h with hm | he
  · exact hm
  · cases he

/-- Every pair produced by `interruptCandidates` passed `should_interrupt`
against the selected speaker and the truncated in-progress utterance. -/
theorem interruptCandidates_sound {e : Env} {conv : Conversation}
    {sp : Agent} {seed : Nat} {p : Agent × Rat}
    (h : p ∈ interruptCandidates e conv sp seed) :
    should_interrupt e p.1 sp conv
      (truncatedText (utteranceText e sp conv seed)) seed = true := by
  simp only [interruptCandidates, List.mem_filterMap] at h
  rcases h with ⟨a, _, hf⟩
  by_cases hs : should_interrupt e a sp conv
      (truncatedText (utteranceText e sp conv seed)) seed = true
  · rw [if_pos hs] at hf
    cases hf
    exact hs
  · rw [if_neg hs] at hf
    cases hf

/-- Long-term count distributes over append. -/
theorem longTermLen_append (l₁ l₂ : List MemoryEntry) :
    longTermLen (l₁ ++ l₂) = longTermLen l₁ + longTermLen l₂ := by
  simp [longTermLen, List.filter_append]

/-- Long-term count of a cons. -/
theorem longTermLen_cons (m : MemoryEntry) (t : List MemoryEntry) :
    longTermLen (m :: t) =
      (if m.kind = MemoryKind.persona ∨ m.kind = MemoryKind.longTerm
       then 1 else 0) + longTermLen t := by
  by_cases h : m.kind = MemoryKind.persona ∨ m.kind = MemoryKind.longTerm
  · simp [longTermLen, List.filter_cons, h, Nat.add_comm]
  · simp [longTermLen, List.filter_cons, h]

/-- Promotion only re-kinds working entries to long_term, so the
long-term count never drops. -/
theorem longTermLen_promoteSalient (bar : Rat) (l : List MemoryEntry) :
    longTermLen l ≤ longTermLen (promoteSalient bar l) := by
  induction l with
  | nil => exact Nat.le_refl _
  | cons m t ih =>
    by_cases hc : m.kind = MemoryKind.working ∧ bar ≤ m.salience
    · have hmap : promoteSalient bar (m :: t) =
          { m with kind := MemoryKind.longTerm } :: promoteSalient bar t := by
        simp [promoteSalient, hc]
      rw [hmap, longTermLen_cons, longTermLen_cons]
      have h1 : ¬(m.kind = MemoryKind.persona ∨ m.kind = MemoryKind.longTerm) := by
        simp [hc.1]
      rw [if_neg h1, if_pos (Or.inr rfl)]
      omega
    · have hmap : promoteSalient bar (m :: t) = m :: promoteSalient bar t := by
        simp [promoteSalient, hc]
      rw [hmap, longTermLen_cons, longTermLen_cons]
      split <;> omega

/-- Removing one entry that satisfies `q` leaves the `p`-filtered list
unchanged whenever `q` and `p` are disjoint. -/
theorem filter_removeFirstBy (p q : MemoryEntry → Bool)
    (hpq : ∀ m, q m = true → p m = false) (l : List MemoryEntry) :
    (removeFirstBy q l).filter p = l.filter p := by
  induction l with
  | nil => rfl
  | cons m t ih =>
    by_cases hq : q m = true
    · rw [removeFirstBy, if_pos hq, List.filter_cons, if_neg]
      simp [hpq m hq]
    · have hq' : q m = false := by
        revert hq; cases q m <;> simp
      rw [removeFirstBy, if_neg (by simp [hq'])]
      rw [List.filter_cons, List.filter_cons, ih]

/-- Evicting one least-salient working entry preserves the long-term
count exactly (it never touches long-term entries). -/
theorem longTermLen_evictOne (l : List MemoryEntry) :
    longTermLen (evictOne l) = longTermLen l := by
  unfold evictOne
  cases h : minWorkingKey l with
  | none => rfl
  | some k =>
    unfold longTermLen
    rw [filter_removeFirstBy]
    intro m hm
    rw [Bool.and_eq_true] at hm
    have hk : m.kind = MemoryKind.working := of_decide_eq_true hm.1
    simp [hk]

/-- Iterated eviction preserves the long-term count. -/
theorem longTermLen_evictDown (n : Nat) :
    ∀ l : List MemoryEntry, longTermLen (evictDown n l) = longTermLen l := by
  induction n with
  | zero => intro l; rfl
  | succ k ih =>
    intro l
    show longTermLen (evictDown k (evictOne l)) = _
    rw [ih, longTermLen_evictOne]

/-- Consolidation never decreases the long-term count: promotion only adds
long-term entries and eviction removes only working entries. -/
theorem longTermCount_consolidate (cap : Nat) (bar : Rat) (s : MemoryStore) :
    longTermCount s ≤ longTermCount (consolidate cap bar s) := by
  unfold consolidate
  split
  · exact Nat.le_refl _
  · show longTermLen s.entries ≤
      longTermLen (evictDown _ (promoteSalient bar s.entries))
    rw [longTermLen_evictDown]
    exact longTermLen_promoteSalient bar s.entries

/-- The post-turn memory update (append new working/thought entries, then
consolidate) never decreases the long-term count. -/
theorem longTermCount_postTurn (e : Env) (conv : Conversation) (seed : Nat)
    (isSpk : Bool) (a : Agent) :
    longTermCount a.memory ≤
      longTermCount (postTurnMemory e conv seed isSpk a) := by
  unfold postTurnMemory
  refine Nat.le_trans ?_ (longTermCount_consolidate _ _ _)
  show longTermLen a.memory.entries ≤ longTermLen _
  split
  · rw [longTermLen_append, longTermLen_append]
    omega
  · rw [longTermLen_append]
    omega

/-- One cycle appends at most two transcript entries (two exactly when an
interruption is confirmed). -/
theorem newUtterances_length (e : Env) (conv : Conversation) (seed : Nat) :
    (newUtterances e conv seed).length ≤ 2 := by
  cases hsp : speakerOf e conv seed with
  | none => simp [newUtterances, hsp]
  | some sp =>
    cases hin : interrupterOf e conv seed with
    | none => simp [newUtterances, hsp, hin]
    | some i => simp [newUtterances, hsp, hin]

/-- One cycle advances the turn counter by exactly 1. -/
theorem advance_currentTurn (e : Env) (conv : Conversation) (seed : Nat) :
    (advance e conv seed).currentTurn = conv.currentTurn + 1 := rfl

/-- Running `n` cycles advances the turn counter by exactly `n`. -/
theorem run_currentTurn (e : Env) (n : Nat) :
    ∀ (conv : Conversation) (seed : Nat),
      (run e conv n seed).currentTurn = conv.currentTurn + n := by
  induction n with
  | zero => intro conv seed; rfl
  | succ k ih =>
    intro conv seed
    show (run e (advance e conv seed) k (seed + 1)).currentTurn = _
    rw [ih]
    show conv.currentTurn + 1 + k = _
    omega

/-- Running `n` cycles appends at most `2 * n` transcript entries. -/
theorem run_transcript_len (e : Env) (n : Nat) :
    ∀ (conv : Conversation) (seed : Nat),
      (run e conv n seed).transcript.length ≤
        conv.transcript.length + 2 * n := by
  induction n with
  | zero => intro conv seed; simp [run]
  | succ k ih =>
    intro conv seed
    show (run e (advance e conv seed) k (seed + 1)).transcript.length ≤ _
    refine Nat.le_trans (ih _ _) ?_
    have h2 := newUtterances_length e conv seed
    have h3 : (advance e conv seed).transcript.length =
        conv.transcript.length + (newUtterances e conv seed).length := by
      simp [advance]
    omega

/-- Persona entries are counted as long-term memories, one per chunk. -/
theorem longTermLen_personaEntries (e : Env) (l : List (Nat × String)) :
    longTermLen (l.map (personaEntry e)) = l.length := by
  induction l with
  | nil => rfl
  | cons p t ih =>
    have hk : (personaEntry e p).kind = MemoryKind.persona := rfl
    rw [List.map_cons, longTermLen_cons, ih, if_pos (Or.inl hk), List.length_cons]
    omega

/-- Persona entries contribute no working memories. -/
theorem workingLen_personaEntries (e : Env) (l : List (Nat × String)) :
    workingLen (l.map (personaEntry e)) = 0 := by
  induction l with
  | nil => rfl
  | cons p t ih =>
    rw [List.map_cons]
    show (List.filter _ (_ :: _)).length = 0
    rw [List.filter_cons, if_neg (by simp [personaEntry])]
    exact ih

/-- Persona entries contribute no thought memories. -/
theorem thoughtLen_personaEntries (e : Env) (l : List (Nat × String)) :
    thoughtLen (l.map (personaEntry e)) = 0 := by
  induction l with
  | nil => rfl
  | cons p t ih =>
    rw [List.map_cons]
    show (List.filter _ (_ :: _)).length = 0
    rw [List.filter_cons, if_neg (by simp [personaEntry])]
    exact ih

/-- Persona chunking always yields exactly `n` chunks. -/
theorem chunkPersona_length (persona : String) (n : Nat) :
    (chunkPersona persona n).length = n := by
  simp [chunkPersona]

/-- C2: `decide_to_speak(agent, conversation)` returns true if and only if
the agent's computed intrinsic-motivation score is ≥ the agent's
configured `im_threshold`. -/
theorem claim_C2_decide_to_speak :
    ∀ (e : Env) (a : Agent) (conv : Conversation) (seed : Nat),
      decide_to_speak e a conv seed = true ↔
        a.config.imThreshold ≤ compute_intrinsic_motivation e a conv seed := by
  intro e a conv seed
  simp [decide_to_speak]

/-- C7: the engine is a deterministic function of its inputs and seed —
two `run()` calls on identical conversations with identical seeds (and
the same deterministic mock environment) yield identical results, hence
identical transcripts. -/
theorem claim_C7_deterministic :
    ∀ (e : Env) (c₁ c₂ : Conversation) (n s₁ s₂ : Nat),
      c₁ = c₂ → s₁ = s₂ → run e c₁ n s₁ = run e c₂ n s₂ := by
  intro e c₁ c₂ n s₁ s₂ h1 h2
  rw [h1, h2]

/-- C7 witness: the determinism theorem applied at the concrete demo
conversation and seed. -/
theorem claim_C7_witness :
    run envDemo convDemo 5 0 = run envDemo convDemo 5 0 :=
  claim_C7_deterministic envDemo convDemo convDemo 5 0 0 rfl rfl

/-- C4: after every turn advanced by the scheduler,
`turns_since_last_speak` is 0 for the agent that spoke the turn and the
previous value plus 1 for every other participant. -/
theorem claim_C4_turns_since_last_speak :
    ∀ (e : Env) (conv : Conversation) (seed : Nat),
      List.Forall₂
        (fun a b => b.state.turnsSinceLastSpeak =
          if turnSpeaker e conv seed = some a.id then 0
          else a.state.turnsSinceLastSpeak + 1)
        conv.participants (advance e conv seed).participants := by
  intro e conv seed
  show List.Forall₂ _ conv.participants
    (conv.participants.map (updateParticipant e conv seed))
  refine forallTwoMap _ _ _ ?_
  intro a _
  rfl

/-- C5: the long-term memory count is monotonically non-decreasing across
any `consolidate()` call, across every scheduler cycle (`advance`), and
across any full `run`: consolidation promotes working entries into
long_term and eviction removes only working entries. -/
theorem claim_C5_long_term_monotone :
    (∀ (cap : Nat) (bar : Rat) (s : MemoryStore),
        longTermCount s ≤ longTermCount (consolidate cap bar s)) ∧
    (∀ (e : Env) (conv : Conversation) (seed : Nat),
        List.Forall₂
          (fun a b => longTermCount a.memory ≤ longTermCount b.memory)
          conv.participants (advance e conv seed).participants) ∧
    (∀ (e : Env) (conv : Conversation) (n seed : Nat),
        List.Forall₂
          (fun a b => longTermCount a.memory ≤ longTermCount b.memory)
          conv.participants (run e conv n seed).participants) := by
  have hadv : ∀ (e : Env) (conv : Conversation) (seed : Nat),
      List.Forall₂
        (fun a b => longTermCount a.memory ≤ longTermCount b.memory)
        conv.participants (advance e conv seed).participants := by
    intro e conv seed
    show List.Forall₂ _ conv.participants
      (conv.participants.map (updateParticipant e conv seed))
    refine forallTwoMap _ _ _ ?_
    intro a _
    exact longTermCount_postTurn e conv seed _ a
  refine ⟨longTermCount_consolidate, hadv, ?_⟩
  intro e conv n seed
  induction n generalizing conv seed with
  | zero =>
    exact List.forall₂_same.mpr (fun a _ => Nat.le_refl _)
  | succ k ih =>
    show List.Forall₂ _ conv.participants
      (run e (advance e conv seed) k (seed + 1)).participants
    exact @forallTwoComp Agent
      (fun a b => longTermCount a.memory ≤ longTermCount b.memory)
      (fun a b => longTermCount a.memory ≤ longTermCount b.memory)
      (fun a b => longTermCount a.memory ≤ longTermCount b.memory)
      (fun a b c h1 h2 => Nat.le_trans h1 h2)
      conv.participants (advance e conv seed).participants
      (run e (advance e conv seed) k (seed + 1)).participants
      (hadv e conv seed) (ih (advance e conv seed) (seed + 1))

/-- C1: `should_interrupt(agent, current_speaker)` is true iff the agent's
interrupt score clears `interrupt_threshold` AND strictly exceeds the
current speaker's own last recorded motivation score; consequently a cycle
marks an utterance interrupted only when a confirmed interrupter exists,
and every confirmed interrupter satisfied exactly this condition against
the selected speaker. -/
theorem claim_C1_interrupt_condition :
    (∀ (e : Env) (a sp : Agent) (conv : Conversation) (ctx : String)
        (seed : Nat),
      should_interrupt e a sp conv ctx seed = true ↔
        (a.config.interruptThreshold ≤
            compute_interrupt_score e a conv ctx seed ∧
         sp.state.lastMotivationScore <
            compute_interrupt_score e a conv ctx seed)) ∧
    (∀ (e : Env) (conv : Conversation) (seed : Nat) (u : Utterance),
      u ∈ newUtterances e conv seed → u.interrupted = true →
        (speakerOf e conv seed).isSome = true ∧
        (interrupterOf e conv seed).isSome = true) ∧
    (∀ (e : Env) (conv : Conversation) (seed : Nat) (sp i : Agent),
      speakerOf e conv seed = some sp → interrupterOf e conv seed = some i →
        should_interrupt e i sp conv
          (truncatedText (utteranceText e sp conv seed)) seed = true) := by
  refine ⟨?_, ?_, ?_⟩
  · intro e a sp conv ctx seed
    simp [should_interrupt]
  · intro e conv seed u hmem hint
    cases hsp : speakerOf e conv seed with
    | none => simp [newUtterances, hsp] at hmem
    | some sp =>
      cases hin : interrupterOf e conv seed with
      | none =>
        simp only [newUtterances, hsp, hin, List.mem_singleton] at hmem
        have hu : u.interrupted = false := by rw [hmem]
        rw [hu] at hint
        cases hint
      | some i => exact ⟨rfl, rfl⟩
  · intro e conv seed sp i hsp hin
    have hin' : (selectBest (interruptCandidates e conv sp seed)).map
        (fun p => p.1) = some i := by
      rw [interrupterOf, hsp] at hin
      exact hin
    rcases Option.map_eq_some'.mp hin' with ⟨p, hsel, hp⟩
    have hs := interruptCandidates_sound (selectBest_mem hsel)
    rw [hp] at hs
    exact hs

/-- C1 witness: in the demo run, the first cycle appends an interrupted
utterance, and its confirmed interrupter (agent B) satisfied the interrupt
condition against the selected speaker (agent A). -/
theorem claim_C1_witness :
    ((speakerOf envDemo convDemo 0).isSome = true ∧
     (interrupterOf envDemo convDemo 0).isSome = true) ∧
    should_interrupt envDemo agentB agentA convDemo
      (truncatedText (utteranceText envDemo agentA convDemo 0)) 0 = true :=
  ⟨claim_C1_interrupt_condition.2.1 envDemo convDemo 0
      ⟨0, 0, "hel", true⟩ (by decide) rfl,
   claim_C1_interrupt_condition.2.2 envDemo convDemo 0 agentA agentB
      (by decide) (by decide)⟩

/-- C3: `Agent.create` with any of im_threshold, system1_prob, or
interrupt_threshold outside [0,1], or an empty persona, fails with a
ConfigError and never yields a constructed Agent (its `toOption` is
`none`). -/
theorem claim_C3_create_validation :
    ∀ (e : Env) (id : Nat) (name persona : String) (cfg : Config),
      (¬ (0 ≤ cfg.imThreshold ∧ cfg.imThreshold ≤ 1) ∨
       ¬ (0 ≤ cfg.system1Prob ∧ cfg.system1Prob ≤ 1) ∨
       ¬ (0 ≤ cfg.interruptThreshold ∧ cfg.interruptThreshold ≤ 1) ∨
       persona = "") →
      (Agent.create e id name persona cfg).toOption = none := by
  intro e id name persona cfg H
  by_cases hv : validConfig cfg = true
  · have hr := hv
    rw [validConfig, Bool.and_eq_true, Bool.and_eq_true] at hr
    have h1 := of_decide_eq_true hr.1.1
    have h2 := of_decide_eq_true hr.1.2
    have h3 := of_decide_eq_true hr.2
    have hp : persona = "" := by
      rcases H with h | h | h | h
      · exact absurd h1 h
      · exact absurd h2 h
      · exact absurd h3 h
      · exact h
    subst hp
    rw [Agent.create, hv]
    rfl
  · have hv' : validConfig cfg = false := by
      revert hv
      cases validConfig cfg <;> simp
    rw [Agent.create, hv']
    rfl

/-- A config whose im_threshold is 1.01, out of range. -/
def cfgBad : Config :=
  { imThreshold := mkRat 101 100, system1Prob := 0,
    interruptThreshold := 0, proactiveTone := false }

/-- C3 witness: creation with im_threshold = 1.01 yields no Agent. -/
theorem claim_C3_witness :
    (Agent.create envDemo 7 "X" "p" cfgBad).toOption = none :=
  claim_C3_create_validation envDemo 7 "X" "p" cfgBad
    (Or.inl (by decide))

/-- C8: every successful `Agent.create` with persona chunking set to 3
yields an agent whose store holds exactly 3 long-term memories (the
embedded persona chunks) and no working or thought memories. -/
theorem claim_C8_create_memory_counts :
    ∀ (e : Env) (id : Nat) (name persona : String) (cfg : Config)
        (a : Agent),
      e.chunkCount = 3 → Agent.create e id name persona cfg = Except.ok a →
      longTermCount a.memory = 3 ∧ workingCount a.memory = 0 ∧
        thoughtCount a.memory = 0 := by
  intro e id name persona cfg a h3 h
  rw [Agent.create] at h
  split at h
  · exact Except.noConfusion h
  · split at h
    · exact Except.noConfusion h
    · injection h with h'
      subst h'
      refine ⟨?_, ?_, ?_⟩
      · show longTermLen
          ((chunkPersona persona e.chunkCount).enum.map (personaEntry e)) = 3
        rw [longTermLen_personaEntries, List.enum_length,
          chunkPersona_length, h3]
      · exact workingLen_personaEntries e _
      · exact thoughtLen_personaEntries e _

/-- The agent the demo environment constructs from a six-character
persona; `Agent.create` returns exactly this record. -/
def agentDemo : Agent :=
  { id := 0, name := "Alice", persona := "abcdef", config := cfgDemo,
    memory := ⟨(chunkPersona "abcdef" envDemo.chunkCount).enum.map
      (personaEntry envDemo)⟩,
    state := { turnsSinceLastSpeak := 0, lastTurnSpoken := 0,
               lastMotivationScore := 0 } }

/-- C8 witness: the concrete demo creation yields 3 long-term memories
and no working or thought memories. -/
theorem claim_C8_witness :
    longTermCount agentDemo.memory = 3 ∧ workingCount agentDemo.memory = 0 ∧
      thoughtCount agentDemo.memory = 0 :=
  claim_C8_create_memory_counts envDemo 0 "Alice" "abcdef" cfgDemo
    agentDemo rfl rfl

/-- C9: every successful `Agent.create` returns an agent whose initial
state has turns_since_last_speak = 0 and last_turn_spoken = 0. -/
theorem claim_C9_create_initial_state :
    ∀ (e : Env) (id : Nat) (name persona : String) (cfg : Config)
        (a : Agent),
      Agent.create e id name persona cfg = Except.ok a →
      a.state.turnsSinceLastSpeak = 0 ∧ a.state.lastTurnSpoken = 0 := by
  intro e id name persona cfg a h
  rw [Agent.create] at h
  split at h
  · exact Except.noConfusion h
  · split at h
    · exact Except.noConfusion h
    · injection h with h'
      subst h'
      exact ⟨rfl, rfl⟩

/-- C9 witness: the concrete demo creation starts with zeroed state. -/
theorem claim_C9_witness :
    agentDemo.state.turnsSinceLastSpeak = 0 ∧
      agentDemo.state.lastTurnSpoken = 0 :=
  claim_C9_create_initial_state envDemo 0 "Alice" "abcdef" cfgDemo
    agentDemo rfl

/-- C10: every conversation returned by `Conversation.create` starts at
current_turn = 0 with an empty transcript, and its participant sequence
is exactly the supplied sequence, order preserved. -/
theorem claim_C10_conversation_create :
    ∀ (ps : List Agent) (topic : String) (c : Conversation),
      Conversation.create ps topic = Except.ok c →
      c.currentTurn = 0 ∧ c.participants = ps ∧ c.topic = topic ∧
        c.transcript = [] := by
  intro ps topic c h
  rw [Conversation.create] at h
  split at h
  · exact Except.noConfusion h
  · split at h
    · injection h with h'
      subst h'
      exact ⟨rfl, rfl, rfl, rfl⟩
    · exact Except.noConfusion h

/-- C10 witness: creating the demo conversation preserves the two demo
agents in order and starts at turn 0. -/
theorem claim_C10_witness :
    convDemo.currentTurn = 0 ∧ convDemo.participants = [agentA, agentB] ∧
      convDemo.topic = "ai" ∧ convDemo.transcript = [] :=
  claim_C10_conversation_create [agentA, agentB] "ai" convDemo rfl

/-- C6 counterexample: on the demo conversation, `run(·, max_turns := 5)`
produces a transcript of 10 entries (every cycle ends in an interruption,
which appends two entries with the same turn index), so the claimed bound
of at most 5 transcript entries is false at this input. -/
theorem claim_C6_counterexample :
    ¬ ((run envDemo convDemo 5 0).transcript.length ≤ 5 ∧
       (run envDemo convDemo 5 0).currentTurn = 5) := by
  decide

/-- C6 (amended): `advance` increases current_turn by exactly 1 per
completed or silent cycle, and `run(conversation, max_turns := 5)` from a
fresh conversation leaves current_turn = 5 and returns a transcript with
at most 10 entries (each cycle appends at most two entries; two exactly
when the cycle is interrupted). -/
theorem claim_C6_amended :
    (∀ (e : Env) (c : Conversation) (s : Nat),
        (advance e c s).currentTurn = c.currentTurn + 1) ∧
    (∀ (e : Env) (conv : Conversation) (seed : Nat),
        conv.currentTurn = 0 → conv.transcript = [] →
        (run e conv 5 seed).currentTurn = 5 ∧
        (run e conv 5 seed).transcript.length ≤ 10) := by
  refine ⟨fun e c s => rfl, ?_⟩
  intro e conv seed h0 ht
  constructor
  · rw [run_currentTurn, h0]
  · have h := run_transcript_len e 5 conv seed
    rw [ht] at h
    simpa using h

/-- C6 witness: the amended bound applied at the concrete demo
conversation. -/
theorem claim_C6_witness :
    (run envDemo convDemo 5 0).currentTurn = 5 ∧
    (run envDemo convDemo 5 0).transcript.length ≤ 10 :=
  claim_C6_amended.2 envDemo convDemo 0 rfl rfl

end ThoughtfulAgents
